import Mathlib

/-
Verification of the wrap-ai enterprise extension layer.

Part 1 embeds `enterprise/server/auth/domain_blocker.py` (class DomainBlocker).
Part 2 embeds `enterprise/server/telemetry/service.py` (class TelemetryService).

Strings are modelled as `List Char` (emails and patterns are ASCII in this
code base); Python timestamps (`datetime`) are modelled as integer seconds,
so `timedelta.days` is `Int.fdiv delta 86400` and
`timedelta.total_seconds() / 3600` is the rational `delta / 3600`.
Fallible database reads (each Python method wraps its session in
try/except) are modelled as an `Except String` input.
-/

namespace Wrap

/-! ## DomainBlocker (domain_blocker.py) -/

/-- Python whitespace characters recognised by `str.strip()`. -/
def isPySpace (c : Char) : Bool :=
  c = ' ' || c = '\t' || c = '\n' || c = '\r' || c = '\x0b' || c = '\x0c'

/-- Python `str.strip()`: drop whitespace from both ends. -/
def pyStrip (s : List Char) : List Char :=
  ((s.dropWhile isPySpace).reverse.dropWhile isPySpace).reverse

/-- Python `str.lower()` (ASCII case mapping, which is all this code base uses). -/
def pyLower (s : List Char) : List Char := s.map Char.toLower

/-- Python `'@' in email` (Python membership test). -/
def containsAt : List Char → Bool
  | [] => false
  | c :: r => if c = '@' then true else containsAt r

/-- Accumulator loop for `str.split('@')`. -/
def splitOnAtGo : List Char → List Char → List (List Char)
  | [], acc => [acc.reverse]
  | c :: r, acc => if c = '@' then acc.reverse :: splitOnAtGo r [] else splitOnAtGo r (c :: acc)

/-- Python `email.split('@')`: split on every `'@'`. -/
def splitOnAt (s : List Char) : List (List Char) := splitOnAtGo s []

/-- Python `str.endswith(suffix)`. -/
def pyEndsWith (s suffix : List Char) : Bool := decide (suffix <:+ s)

/-- Embeds `DomainBlocker._extract_domain` (domain_blocker.py lines 19-31):
`None` for an empty email or one without `'@'`; otherwise
`email.split('@')[1].strip().lower()`, and `None` if that is empty.
Note that `split('@')[1]` is the portion between the first and second `'@'`. -/
def extract_domain (email : List Char) : Option (List Char) :=
  if email = [] then none
  else if containsAt email = false then none
  else
    match (splitOnAt email)[1]? with
    | none => none
    | some part =>
      let domain := pyLower (pyStrip part)
      if domain = [] then none else some domain

/-- The per-pattern test in `DomainBlocker.is_domain_blocked`
(domain_blocker.py lines 54-69): a pattern starting with `'.'` is a
literal suffix test; a bare pattern matches exactly or as `'.' + pattern`
suffix. -/
def matchesPattern (domain pat : List Char) : Bool :=
  if pat.head? = some '.' then pyEndsWith domain pat
  else if domain = pat then true
  else pyEndsWith domain ('.' :: pat)

/-- The `for blocked_pattern in self.blocked_domains` loop with its early
`return True`. -/
def matchesAny (blocked : List (List Char)) (domain : List Char) : Bool :=
  match blocked with
  | [] => false
  | p :: rest => if matchesPattern domain p then true else matchesAny rest domain

/-- Embeds `DomainBlocker.is_domain_blocked` (domain_blocker.py lines 33-72),
with the blocked-pattern list (`self.blocked_domains`) passed explicitly. -/
def is_domain_blocked (blocked : List (List Char)) (email : List Char) : Bool :=
  if blocked = [] then false
  else if email = [] then false
  else
    match extract_domain email with
    | none => false
    | some domain => matchesAny blocked domain

/-- Modelled from the spec: "split on first `@`, take the substring after
it, trim whitespace, lower-case" — the spec's reading keeps everything
after the FIRST `'@'`, unlike the code's `split('@')[1]`. -/
def afterFirstAt : List Char → List Char
  | [] => []
  | c :: r => if c = '@' then r else afterFirstAt r

/-- Modelled from the spec: domain extraction as the spec words it
(substring after the first `'@'`, trimmed, lower-cased, `None` if empty). -/
def specExtractDomain (email : List Char) : Option (List Char) :=
  if email = [] then none
  else if containsAt email = false then none
  else
    let domain := pyLower (pyStrip (afterFirstAt email))
    if domain = [] then none else some domain

/-- String literal to `List Char`. -/
def toL (s : String) : List Char := s.toList

/-! ## TelemetryService (telemetry/service.py)

Timestamps are integer seconds.  `(a - b).days` in Python is floor
division of the difference by 86400; `(a - b).total_seconds() / 3600`
is the exact rational quotient by 3600. -/

/-- Python `timedelta.days` for a delta of `delta` seconds (floor division). -/
def pyTimedeltaDays (delta : Int) : Int := Int.fdiv delta 86400

/-- Python `timedelta.total_seconds() / 3600` for a delta of `delta` seconds. -/
def hoursTotal (delta : Int) : ℚ := (delta : ℚ) / 3600

/-- Row of the `telemetry_metrics` table (storage/telemetry_metrics.py),
as used by service.py. -/
structure MetricBatch where
  id : Nat
  metrics_data : List (String × Int)
  collected_at : Int
  uploaded_at : Option Int
  upload_attempts : Nat
  last_upload_error : Option String
deriving DecidableEq

/-- Singleton row (id=1) of the `telemetry_identity` table. -/
structure TelemetryIdentity where
  customer_id : Option String
  instance_id : Option String
deriving DecidableEq

/-- Database state visible to the telemetry service: the metric batches
and the singleton identity row. -/
structure Store where
  batches : List MetricBatch
  identity : Option TelemetryIdentity
deriving DecidableEq

/-- The interval configuration read in `TelemetryService.__init__`
(service.py lines 69-84) from the environment, with its defaults. -/
structure TelemetryConfig where
  collection_interval_days : Int
  upload_interval_hours : Int
  license_warning_threshold_days : Int
  bootstrap_check_interval_seconds : Nat
  normal_check_interval_seconds : Nat
deriving DecidableEq

/-- The default configuration: 7 days, 24 hours, 4 days, 180 s, 3600 s. -/
def defaultConfig : TelemetryConfig := ⟨7, 24, 4, 180, 3600⟩

/-- Embeds `query(TelemetryMetrics).order_by(collected_at.desc()).first()`:
the `collected_at` of the returned row, i.e. the maximal `collected_at`
(`none` when the table is empty). -/
def maxCollectedAt : List MetricBatch → Option Int
  | [] => none
  | b :: rest =>
    match maxCollectedAt rest with
    | none => some b.collected_at
    | some m => some (max b.collected_at m)

/-- Embeds `query(TelemetryMetrics).filter(uploaded_at.isnot(None))
.order_by(uploaded_at.desc()).first()`: the `uploaded_at` of the returned
row, i.e. the maximal non-null `uploaded_at` (`none` when no row was ever
uploaded). -/
def maxUploadedAt : List MetricBatch → Option Int
  | [] => none
  | b :: rest =>
    match b.uploaded_at, maxUploadedAt rest with
    | none, r => r
    | some t, none => some t
    | some t, some m => some (max t m)

/-- Embeds `query(TelemetryMetrics).filter(uploaded_at.is_(None)).count()`. -/
def pendingCount (batches : List MetricBatch) : Nat :=
  (batches.filter (fun b => b.uploaded_at.isNone)).length

/-- Embeds `TelemetryService._is_identity_established` (service.py lines 263-283):
true iff the singleton identity row exists with both `customer_id` and
`instance_id` non-null; any exception from the read yields `False`. -/
def is_identity_established (db : Except String Store) : Bool :=
  match db with
  | .error _ => false
  | .ok s =>
    match s.identity with
    | none => false
    | some ident => ident.customer_id.isSome && ident.instance_id.isSome

/-- Embeds `TelemetryService._should_collect` (service.py lines 285-304):
`True` with no prior batch, otherwise days since the latest
`collected_at` compared with `collection_interval_days`; any exception
from the read yields `False`. -/
def should_collect (cfg : TelemetryConfig) (now : Int) (db : Except String Store) : Bool :=
  match db with
  | .error _ => false
  | .ok s =>
    match maxCollectedAt s.batches with
    | none => true
    | some t => decide (cfg.collection_interval_days ≤ pyTimedeltaDays (now - t))

/-- Embeds `TelemetryService._should_upload` (service.py lines 306-330): if no
batch was ever uploaded, `True` iff a pending batch exists; otherwise
hours since the most recent `uploaded_at` compared with
`upload_interval_hours`; any exception from the read yields `False`. -/
def should_upload (cfg : TelemetryConfig) (now : Int) (db : Except String Store) : Bool :=
  match db with
  | .error _ => false
  | .ok s =>
    match maxUploadedAt s.batches with
    | none => decide (0 < pendingCount s.batches)
    | some t => decide ((cfg.upload_interval_hours : ℚ) ≤ hoursTotal (now - t))

/-- The check-interval choice at the top of `_collection_loop`
(service.py lines 163-171): normal interval iff identity is established. -/
def collectionLoopCheckInterval (cfg : TelemetryConfig) (db : Except String Store) : Nat :=
  if is_identity_established db then cfg.normal_check_interval_seconds
  else cfg.bootstrap_check_interval_seconds

/-- The identical check-interval choice at the top of `_upload_loop`
(service.py lines 210-218). -/
def uploadLoopCheckInterval (cfg : TelemetryConfig) (db : Except String Store) : Nat :=
  if is_identity_established db then cfg.normal_check_interval_seconds
  else cfg.bootstrap_check_interval_seconds

/-- Result of `TelemetryService.get_license_warning_status` (service.py
lines 529-568); the human-readable `message` field is not modelled. -/
structure LicenseWarningStatus where
  should_warn : Bool
  days_since_upload : Option Int
deriving DecidableEq

/-- Embeds `TelemetryService.get_license_warning_status` (service.py lines
529-568): warn iff an upload exists and whole days since the most recent
`uploaded_at` strictly exceed `license_warning_threshold_days`; no upload
or a read exception yields the non-warning default. -/
def get_license_warning_status (cfg : TelemetryConfig) (now : Int)
    (db : Except String Store) : LicenseWarningStatus :=
  match db with
  | .error _ => ⟨false, none⟩
  | .ok s =>
    match maxUploadedAt s.batches with
    | none => ⟨false, none⟩
    | some t =>
      let d := pyTimedeltaDays (now - t)
      ⟨decide (cfg.license_warning_threshold_days < d), some d⟩

/-! ### Upload run (`_upload_pending_metrics`, service.py lines 373-457)

The external Replicated client is abstracted by oracles: `send_metric`
for `instance.send_metric(key, value)`, `set_status` for
`instance.set_status(InstanceStatus.RUNNING)`, and `Except`-valued calls
for `customer.get_or_create` / `get_or_create_instance` (an `.error` is a
raised exception). -/

/-- The ascending `collected_at` ordering used by the pending-batch query. -/
def byCollectedAt (a b : MetricBatch) : Prop := a.collected_at ≤ b.collected_at

instance : DecidableRel byCollectedAt := fun a b => Int.decLe a.collected_at b.collected_at

instance : IsTotal MetricBatch byCollectedAt := ⟨fun a b => le_total a.collected_at b.collected_at⟩

instance : IsTrans MetricBatch byCollectedAt := ⟨fun _ _ _ h h2 => le_trans h h2⟩

/-- Embeds `query(TelemetryMetrics).filter(uploaded_at.is_(None))
.order_by(collected_at).all()` (service.py lines 385-391). -/
def pendingSorted (batches : List MetricBatch) : List MetricBatch :=
  List.insertionSort byCollectedAt (batches.filter (fun b => b.uploaded_at.isNone))

/-- The `for key, value in metric.metrics_data.items()` send loop
(service.py lines 432-433); stops at the first raised exception. -/
def sendMetrics (send_metric : String → Int → Except String Unit) :
    List (String × Int) → Except String Unit
  | [] => .ok ()
  | (k, v) :: rest =>
    match send_metric k v with
    | .error e => .error e
    | .ok _ => sendMetrics send_metric rest

/-- The body of the per-batch `try` (service.py lines 431-436): send every
key/value pair, then set the instance status. -/
def sendBatchBody (send_metric : String → Int → Except String Unit)
    (set_status : Except String Unit) (m : MetricBatch) : Except String Unit :=
  match sendMetrics send_metric m.metrics_data with
  | .error e => .error e
  | .ok _ => set_status

/-- One iteration of the per-batch loop (service.py lines 429-449): on
success set `uploaded_at := now`, increment `upload_attempts`, clear
`last_upload_error`; on a caught exception increment `upload_attempts`
and record `last_upload_error`. -/
def uploadOneBatch (send_metric : String → Int → Except String Unit)
    (set_status : Except String Unit) (now : Int) (m : MetricBatch) : MetricBatch :=
  match sendBatchBody send_metric set_status m with
  | .ok _ =>
    { m with uploaded_at := some now, upload_attempts := m.upload_attempts + 1,
             last_upload_error := none }
  | .error e =>
    { m with upload_attempts := m.upload_attempts + 1, last_upload_error := some e }

/-- The whole `for metric in pending_metrics` loop: the `except` clause
ends each iteration, so the loop always continues to the next batch. -/
def uploadLoopGo (send_metric : String → Int → Except String Unit)
    (set_status : Except String Unit) (now : Int) : List MetricBatch → List MetricBatch
  | [] => []
  | m :: rest =>
    uploadOneBatch send_metric set_status now m ::
      uploadLoopGo send_metric set_status now rest

/-- Session state at the end of the batch phase: the mutated batch rows,
the number of `session.commit()` calls issued during and after the batch
loop, and what those commits persisted. -/
structure UploadSession where
  processed : List MetricBatch
  commitCount : Nat
  committed : List MetricBatch
deriving DecidableEq

/-- The batch-processing phase of `_upload_pending_metrics` (service.py
lines 428-451): the loop mutates each pending row in memory and the
single `session.commit()` on line 451 persists all of them. -/
def upload_batch_phase (send_metric : String → Int → Except String Unit)
    (set_status : Except String Unit) (now : Int)
    (pending : List MetricBatch) : UploadSession :=
  let final := uploadLoopGo send_metric set_status now pending
  ⟨final, 1, final⟩

/-- Python truthiness of an optional string (`if not identity.customer_id`):
falsy when `None` or empty. -/
def pyTruthy : Option String → Bool
  | none => false
  | some s => !s.isEmpty

/-- Embeds `TelemetryService._get_or_create_identity` (service.py lines 486-527):
create the singleton row if missing; set `customer_id` to the admin email
when falsy; when `instance_id` is falsy obtain it from the Replicated
client (`idCall`), falling back to a locally generated UUID (`uuid`) if
the SDK is unavailable or the call raises. -/
def get_or_create_identity (available : Bool)
    (idCall : Except String (String × String)) (uuid : String)
    (adminEmail : String) (ident0 : Option TelemetryIdentity) : TelemetryIdentity :=
  let identity := match ident0 with
    | some i => i
    | none => ⟨none, none⟩
  let identity :=
    if pyTruthy identity.customer_id then identity
    else { identity with customer_id := some adminEmail }
  if pyTruthy identity.instance_id then identity
  else if available then
    match idCall with
    | .ok (_, iid) => { identity with instance_id := some iid }
    | .error _ => { identity with instance_id := some uuid }
  else { identity with instance_id := some uuid }

/-- The identity part of `_upload_pending_metrics` (service.py lines
375-377 and 403-426): with the SDK unavailable the run returns before
touching the identity; otherwise `_get_or_create_identity` runs, and then
lines 420-425 unconditionally overwrite both ids with the values returned
by `customer.get_or_create` / `get_or_create_instance` (`upCall`); an
exception there propagates to the outer `except` on line 456. -/
def upload_run_identity (available : Bool)
    (idCall upCall : Except String (String × String)) (uuid : String)
    (adminEmail : String) (ident0 : Option TelemetryIdentity) :
    Except String (Option TelemetryIdentity) :=
  if available = false then .ok ident0
  else
    let identity := get_or_create_identity available idCall uuid adminEmail ident0
    match upCall with
    | .error e => .error e
    | .ok (cid, iid) =>
      .ok (some { identity with customer_id := some cid, instance_id := some iid })

/-- A concrete send oracle (fails exactly on the key "bad"), used to
exercise the upload run on concrete data. -/
def exSendMetric : String → Int → Except String Unit :=
  fun k _ => if k = "bad" then .error "boom" else .ok ()

/-- A concrete pending batch whose upload succeeds. -/
def exBatchA : MetricBatch := ⟨0, [("k", 2)], 5, none, 0, none⟩

/-- A concrete pending batch whose upload fails (key "bad"). -/
def exBatchB : MetricBatch := ⟨1, [("bad", 1)], 10, none, 0, none⟩

/-! ## Helper lemmas for string handling -/

theorem splitOnAtGo_no_at (l : List Char) (acc : List Char) (h : containsAt l = false) :
    splitOnAtGo l acc = [acc.reverse ++ l] := by
  induction l generalizing acc with
  | nil => simp [splitOnAtGo]
  | cons c r ih =>
    rw [containsAt] at h
    by_cases hc : c = '@'
    · rw [if_pos hc] at h; cases h
    · rw [if_neg hc] at h
      rw [splitOnAtGo, if_neg hc, ih _ h]
      simp

theorem splitOnAtGo_with_at (u rest acc : List Char) (h : containsAt u = false) :
    splitOnAtGo (u ++ '@' :: rest) acc = (acc.reverse ++ u) :: splitOnAtGo rest [] := by
  induction u generalizing acc with
  | nil => simp [splitOnAtGo]
  | cons c r ih =>
    rw [containsAt] at h
    by_cases hc : c = '@'
    · rw [if_pos hc] at h; cases h
    · rw [if_neg hc] at h
      rw [List.cons_append, splitOnAtGo, if_neg hc, ih _ h]
      simp

theorem splitOnAt_pair (u rest : List Char) (hu : containsAt u = false)
    (hr : containsAt rest = false) : splitOnAt (u ++ '@' :: rest) = [u, rest] := by
  rw [splitOnAt, splitOnAtGo_with_at u rest [] hu, splitOnAtGo_no_at rest [] hr]
  simp

theorem containsAt_append (l₁ l₂ : List Char) :
    containsAt (l₁ ++ l₂) = (containsAt l₁ || containsAt l₂) := by
  induction l₁ with
  | nil => simp [containsAt]
  | cons c r ih => by_cases hc : c = '@' <;> simp [containsAt, hc, ih]

theorem with_at_ne_nil (u rest : List Char) : u ++ '@' :: rest ≠ [] := by
  intro h
  exact absurd (List.append_eq_nil.mp h).2 (by simp)

theorem containsAt_with_at (u rest : List Char) :
    containsAt (u ++ '@' :: rest) = true := by
  rw [containsAt_append]
  simp [containsAt]

theorem extract_domain_split (u rest : List Char) (hu : containsAt u = false)
    (hr : containsAt rest = false) :
    extract_domain (u ++ '@' :: rest) =
      (if pyLower (pyStrip rest) = [] then none else some (pyLower (pyStrip rest))) := by
  rw [extract_domain, if_neg (with_at_ne_nil u rest),
    if_neg (by rw [containsAt_with_at]; simp), splitOnAt_pair u rest hu hr]
  rfl

theorem dropWhile_space_eq_self (l : List Char) (h : ∀ c ∈ l, isPySpace c = false) :
    l.dropWhile isPySpace = l := by
  cases l with
  | nil => rfl
  | cons c r => simp [List.dropWhile_cons, h c (by simp)]

theorem pyStrip_no_space (l : List Char) (h : ∀ c ∈ l, isPySpace c = false) :
    pyStrip l = l := by
  rw [pyStrip, dropWhile_space_eq_self l h,
    dropWhile_space_eq_self l.reverse (fun c hc => h c (List.mem_reverse.mp hc)),
    List.reverse_reverse]

theorem pyEndsWith_iff (s suffix : List Char) : pyEndsWith s suffix = true ↔ suffix <:+ s := by
  simp [pyEndsWith]

theorem matchesAny_singleton (p d : List Char) : matchesAny [p] d = matchesPattern d p := by
  by_cases h : matchesPattern d p <;> simp [matchesAny, h]

theorem is_domain_blocked_split (blocked : List (List Char)) (hb : blocked ≠ [])
    (u rest : List Char) (hu : containsAt u = false) (hr : containsAt rest = false) :
    is_domain_blocked blocked (u ++ '@' :: rest) =
      (if pyLower (pyStrip rest) = [] then false
       else matchesAny blocked (pyLower (pyStrip rest))) := by
  rw [is_domain_blocked, if_neg hb, if_neg (with_at_ne_nil u rest),
    extract_domain_split u rest hu hr]
  by_cases hd : pyLower (pyStrip rest) = [] <;> simp [hd]

/-! ## Claim theorems: DomainBlocker -/

/-- C1 (counterexample): the claim says `is_domain_blocked` returns false
for `'user@P.other'` under the single bare pattern `P`; at `P = "other"`
the domain `other.other` ends with `"." + P`, so the code returns true. -/
theorem C1_counterexample :
    is_domain_blocked [toL "other"] (toL "user@other.other") = true := by decide

/-- C1 (amended): for a single bare (non-dot-leading) pattern `P` that is
nonempty, lower-case, free of `'@'` and whitespace, `is_domain_blocked`
returns true for `user@P` and `user@anything.P` and false for `user@notP`;
it returns false for `user@P.other` provided `P.other` does not itself end
with `"." + P` (which it does, e.g., when `P = "other"`). -/
theorem C1_bare_pattern_amended (P : List Char)
    (hne : P ≠ [])
    (hdot : P.head? ≠ some '.')
    (hat : containsAt P = false)
    (hsp : ∀ c ∈ P, isPySpace c = false)
    (hlow : pyLower P = P)
    (hoth : pyEndsWith (P ++ toL ".other") ('.' :: P) = false) :
    is_domain_blocked [P] (toL "user@" ++ P) = true ∧
    is_domain_blocked [P] (toL "user@anything." ++ P) = true ∧
    is_domain_blocked [P] (toL "user@not" ++ P) = false ∧
    is_domain_blocked [P] (toL "user@" ++ P ++ toL ".other") = false := by
  have hb : ([P] : List (List Char)) ≠ [] := by simp
  have hstrip : pyStrip P = P := pyStrip_no_space P hsp
  refine ⟨?_, ?_, ?_, ?_⟩
  · have he : toL "user@" ++ P = toL "user" ++ '@' :: P := rfl
    rw [he, is_domain_blocked_split [P] hb (toL "user") P (by decide) hat,
      hstrip, hlow, if_neg hne, matchesAny_singleton]
    rw [matchesPattern, if_neg hdot, if_pos rfl]
  · have he : toL "user@anything." ++ P = toL "user" ++ '@' :: (toL "anything." ++ P) := rfl
    have hr : containsAt (toL "anything." ++ P) = false := by
      rw [containsAt_append, hat]
      decide
    have hs : pyStrip (toL "anything." ++ P) = toL "anything." ++ P := by
      refine pyStrip_no_space _ (fun c hc => ?_)
      have hlit : ∀ x ∈ toL "anything.", isPySpace x = false := by decide
      rcases List.mem_append.mp hc with h | h
      · exact hlit c h
      · exact hsp c h
    have hl : pyLower (toL "anything." ++ P) = toL "anything." ++ P := by
      rw [pyLower, List.map_append]
      rw [pyLower] at hlow
      rw [hlow]
      rfl
    rw [he, is_domain_blocked_split [P] hb (toL "user") _ (by decide) hr, hs, hl,
      if_neg (fun h => absurd (List.append_eq_nil.mp h).1 (by decide)),
      matchesAny_singleton, matchesPattern, if_neg hdot,
      if_neg (fun h => absurd (List.append_left_eq_self.mp h) (by decide))]
    refine (pyEndsWith_iff _ _).mpr ⟨toL "anything", rfl⟩
  · have he : toL "user@not" ++ P = toL "user" ++ '@' :: (toL "not" ++ P) := rfl
    have hr : containsAt (toL "not" ++ P) = false := by
      rw [containsAt_append, hat]
      decide
    have hs : pyStrip (toL "not" ++ P) = toL "not" ++ P := by
      refine pyStrip_no_space _ (fun c hc => ?_)
      have hlit : ∀ x ∈ toL "not", isPySpace x = false := by decide
      rcases List.mem_append.mp hc with h | h
      · exact hlit c h
      · exact hsp c h
    have hl : pyLower (toL "not" ++ P) = toL "not" ++ P := by
      rw [pyLower, List.map_append]
      rw [pyLower] at hlow
      rw [hlow]
      rfl
    have hnosuf : pyEndsWith (toL "not" ++ P) ('.' :: P) = false := by
      refine Bool.eq_false_iff.mpr (fun htrue => ?_)
      have hsuf : '.' :: P <:+ 'n' :: 'o' :: 't' :: P := (pyEndsWith_iff _ _).mp htrue
      rcases List.suffix_cons_iff.mp hsuf with h | hsuf
      · injection h with h1 _; exact absurd h1 (by decide)
      rcases List.suffix_cons_iff.mp hsuf with h | hsuf
      · injection h with h1 _; exact absurd h1 (by decide)
      rcases List.suffix_cons_iff.mp hsuf with h | hsuf
      · injection h with h1 _; exact absurd h1 (by decide)
      · have hle := hsuf.length_le
        simp at hle
    rw [he, is_domain_blocked_split [P] hb (toL "user") _ (by decide) hr, hs, hl,
      matchesAny_singleton, matchesPattern, if_neg hdot,
      if_neg (fun h => absurd (List.append_left_eq_self.mp h) (by decide)), hnosuf]
    simp
  · have he : toL "user@" ++ P ++ toL ".other" = toL "user" ++ '@' :: (P ++ toL ".other") := by
      rw [List.append_assoc]
      rfl
    have hr : containsAt (P ++ toL ".other") = false := by
      rw [containsAt_append, hat]
      decide
    have hs : pyStrip (P ++ toL ".other") = P ++ toL ".other" := by
      refine pyStrip_no_space _ (fun c hc => ?_)
      have hlit : ∀ x ∈ toL ".other", isPySpace x = false := by decide
      rcases List.mem_append.mp hc with h | h
      · exact hsp c h
      · exact hlit c h
    have hl : pyLower (P ++ toL ".other") = P ++ toL ".other" := by
      rw [pyLower, List.map_append]
      rw [pyLower] at hlow
      rw [hlow]
      rfl
    have hne2 : P ++ toL ".other" ≠ P := by
      intro h
      have hlen := congrArg List.length h
      rw [List.length_append] at hlen
      simp [toL] at hlen
    rw [he, is_domain_blocked_split [P] hb (toL "user") _ (by decide) hr, hs, hl,
      matchesAny_singleton, matchesPattern, if_neg hdot, if_neg hne2, hoth]
    simp

/-- C1 (witness): the amended claim at the concrete pattern `example.com`. -/
theorem C1_witness :
    is_domain_blocked [toL "example.com"] (toL "user@" ++ toL "example.com") = true ∧
    is_domain_blocked [toL "example.com"] (toL "user@anything." ++ toL "example.com") = true ∧
    is_domain_blocked [toL "example.com"] (toL "user@not" ++ toL "example.com") = false ∧
    is_domain_blocked [toL "example.com"]
      (toL "user@" ++ toL "example.com" ++ toL ".other") = false :=
  C1_bare_pattern_amended (toL "example.com") (by decide) (by decide) (by decide)
    (by decide) (by decide) (by decide)

/-- C2: for a single TLD pattern `"." ++ X`, `is_domain_blocked` is true
iff the extracted (trimmed, lower-cased) domain literally ends with the
characters `"." ++ X`; in particular `x.us` matches `.us` while `xus` and
`focus.com` do not. -/
theorem C2_tld_literal_suffix (X email : List Char) :
    (is_domain_blocked [('.' :: X)] email = true ↔
      ∃ d, extract_domain email = some d ∧ ('.' :: X) <:+ d) ∧
    is_domain_blocked [toL ".us"] (toL "user@x.us") = true ∧
    is_domain_blocked [toL ".us"] (toL "user@xus") = false ∧
    is_domain_blocked [toL ".us"] (toL "user@focus.com") = false := by
  refine ⟨?_, by decide, by decide, by decide⟩
  by_cases he : email = []
  · subst he
    simp [is_domain_blocked, extract_domain]
  · rw [is_domain_blocked, if_neg (by simp), if_neg he]
    cases h : extract_domain email with
    | none => simp
    | some d =>
      have hm : (match (some d : Option (List Char)) with
          | none => false
          | some domain => matchesAny [('.' :: X)] domain) = matchesAny [('.' :: X)] d := rfl
      rw [hm, matchesAny_singleton, matchesPattern,
        if_pos (show ('.' :: X).head? = some '.' from rfl)]
      simp [pyEndsWith_iff]

/-- C3 (counterexample): the claim says the patterns are evaluated against
the substring after the FIRST `'@'`; at email `u@b@c` that substring is
`b@c`, which matches no pattern in `["b"]`, yet the code (which uses
`split('@')[1]`, the portion between the first and second `'@'`) blocks
it. -/
theorem C3_counterexample :
    is_domain_blocked [toL "b"] (toL "u@b@c") = true ∧
    specExtractDomain (toL "u@b@c") = some (toL "b@c") ∧
    matchesAny [toL "b"] (toL "b@c") = false := by
  refine ⟨by decide, by decide, by decide⟩

/-- C3 (amended): `is_domain_blocked` evaluates the patterns against the
domain `extract_domain` computes — `split('@')[1]` (the portion between
the first and second `'@'`), trimmed and lower-cased; empty email, email
without `'@'`, a portion that is empty after trimming, and an empty
pattern list all yield false; the result depends on the domain portion
only through its trimmed lower-cased form. -/
theorem C3_extraction_amended :
    (∀ blocked email, is_domain_blocked blocked email =
        (match extract_domain email with
         | none => false
         | some d => matchesAny blocked d)) ∧
    extract_domain [] = none ∧
    (∀ email, containsAt email = false → extract_domain email = none) ∧
    (∀ email, is_domain_blocked ([] : List (List Char)) email = false) ∧
    (∀ u d, containsAt u = false → containsAt d = false → pyStrip d = [] →
        extract_domain (u ++ '@' :: d) = none) ∧
    (∀ blocked u d₁ d₂, containsAt u = false → containsAt d₁ = false →
        containsAt d₂ = false → pyLower (pyStrip d₁) = pyLower (pyStrip d₂) →
        is_domain_blocked blocked (u ++ '@' :: d₁) =
          is_domain_blocked blocked (u ++ '@' :: d₂)) := by
  refine ⟨?_, rfl, ?_, ?_, ?_, ?_⟩
  · intro blocked email
    by_cases hb : blocked = []
    · subst hb
      rw [is_domain_blocked, if_pos rfl]
      cases h : extract_domain email with
      | none => rfl
      | some d => rfl
    · by_cases he : email = []
      · subst he
        rw [is_domain_blocked, if_neg hb, if_pos rfl]
        rfl
      · rw [is_domain_blocked, if_neg hb, if_neg he]
  · intro email h
    by_cases he : email = []
    · subst he; rfl
    · rw [extract_domain, if_neg he, if_pos h]
  · intro email
    rw [is_domain_blocked, if_pos rfl]
  · intro u d hu hd hstrip
    rw [extract_domain_split u d hu hd, hstrip]
    rfl
  · intro blocked u d₁ d₂ hu h1 h2 heq
    by_cases hb : blocked = []
    · subst hb
      rw [is_domain_blocked, if_pos rfl, is_domain_blocked, if_pos rfl]
    · rw [is_domain_blocked_split blocked hb u d₁ hu h1,
        is_domain_blocked_split blocked hb u d₂ hu h2, heq]

/-- C3 (witness): the amended characterization at a concrete email whose
domain portion carries whitespace and upper case. -/
theorem C3_witness :
    is_domain_blocked [toL "example.com"] (toL "user@ EXAMPLE.com ") =
      is_domain_blocked [toL "example.com"] (toL "user@example.com") :=
  C3_extraction_amended.2.2.2.2.2 [toL "example.com"] (toL "user")
    (toL " EXAMPLE.com ") (toL "example.com") (by decide) (by decide) (by decide) (by decide)

/-! ## Helper lemmas for the telemetry queries -/

theorem maxCollectedAt_eq_none (l : List MetricBatch) :
    maxCollectedAt l = none ↔ l = [] := by
  cases l with
  | nil => simp [maxCollectedAt]
  | cons b rest =>
    rw [maxCollectedAt]
    cases maxCollectedAt rest <;> simp

theorem maxCollectedAt_mem (l : List MetricBatch) (t : Int)
    (h : maxCollectedAt l = some t) : ∃ b ∈ l, b.collected_at = t := by
  induction l generalizing t with
  | nil => cases h
  | cons b rest ih =>
    rw [maxCollectedAt] at h
    cases hr : maxCollectedAt rest with
    | none =>
      rw [hr] at h
      injection h with h
      exact ⟨b, by simp, h⟩
    | some m =>
      rw [hr] at h
      injection h with h
      rcases le_total b.collected_at m with hbm | hbm
      · have hm : m = t := by rw [max_eq_right hbm] at h; exact h
        subst hm
        rcases ih m hr with ⟨c, hc, hct⟩
        exact ⟨c, by simp [hc], hct⟩
      · have hb : b.collected_at = t := by rw [max_eq_left hbm] at h; exact h
        exact ⟨b, by simp, hb⟩

theorem maxCollectedAt_ge (l : List MetricBatch) (t : Int)
    (h : maxCollectedAt l = some t) : ∀ b ∈ l, b.collected_at ≤ t := by
  induction l generalizing t with
  | nil => intro c hc; cases hc
  | cons b rest ih =>
    intro c hc
    rw [maxCollectedAt] at h
    cases hr : maxCollectedAt rest with
    | none =>
      rw [hr] at h
      injection h with h
      rcases List.mem_cons.mp hc with hcb | hcr
      · subst hcb; exact le_of_eq h
      · rw [(maxCollectedAt_eq_none rest).mp hr] at hcr
        cases hcr
    | some m =>
      rw [hr] at h
      injection h with h
      rcases List.mem_cons.mp hc with hcb | hcr
      · subst hcb; rw [← h]; exact le_max_left _ _
      · calc c.collected_at ≤ m := ih m hr c hcr
          _ ≤ t := by rw [← h]; exact le_max_right _ _

theorem maxUploadedAt_none_iff (l : List MetricBatch) :
    maxUploadedAt l = none ↔ ∀ b ∈ l, b.uploaded_at = none := by
  induction l with
  | nil => simp [maxUploadedAt]
  | cons b rest ih =>
    rw [maxUploadedAt]
    cases hb : b.uploaded_at with
    | none =>
      cases hr : maxUploadedAt rest with
      | none =>
        simp [hb, hr]
        exact fun c hc => ih.mp hr c hc
      | some m =>
        have hex : ∃ c ∈ rest, ¬ c.uploaded_at = none := by
          by_contra hno
          push_neg at hno
          rw [ih.mpr hno] at hr
          cases hr
        simp [hb, hr]
        exact hex
    | some t =>
      cases hr : maxUploadedAt rest with
      | none => simp [hb, hr]
      | some m => simp [hb, hr]

theorem maxUploadedAt_mem (l : List MetricBatch) (t : Int)
    (h : maxUploadedAt l = some t) : ∃ b ∈ l, b.uploaded_at = some t := by
  induction l generalizing t with
  | nil => cases h
  | cons b rest ih =>
    rw [maxUploadedAt] at h
    cases hb : b.uploaded_at with
    | none =>
      rw [hb] at h
      rcases ih t h with ⟨c, hc, hct⟩
      exact ⟨c, by simp [hc], hct⟩
    | some u =>
      rw [hb] at h
      cases hr : maxUploadedAt rest with
      | none =>
        rw [hr] at h
        injection h with h
        exact ⟨b, by simp, by rw [hb, h]⟩
      | some m =>
        rw [hr] at h
        injection h with h
        rcases le_total u m with hum | hum
        · have hm : m = t := by rw [max_eq_right hum] at h; exact h
          subst hm
          rcases ih m hr with ⟨c, hc, hct⟩
          exact ⟨c, by simp [hc], hct⟩
        · have hu : u = t := by rw [max_eq_left hum] at h; exact h
          exact ⟨b, by simp, by rw [hb, hu]⟩

theorem maxUploadedAt_ge (l : List MetricBatch) (t : Int)
    (h : maxUploadedAt l = some t) :
    ∀ b ∈ l, ∀ u, b.uploaded_at = some u → u ≤ t := by
  induction l generalizing t with
  | nil => intro c hc; cases hc
  | cons b rest ih =>
    intro c hc u hcu
    rw [maxUploadedAt] at h
    cases hb : b.uploaded_at with
    | none =>
      rw [hb] at h
      rcases List.mem_cons.mp hc with hcb | hcr
      · subst hcb; rw [hb] at hcu; cases hcu
      · exact ih t h c hcr u hcu
    | some v =>
      rw [hb] at h
      cases hr : maxUploadedAt rest with
      | none =>
        rw [hr] at h
        injection h with h
        rcases List.mem_cons.mp hc with hcb | hcr
        · subst hcb
          rw [hb] at hcu
          injection hcu with hcu
          rw [hcu] at h
          exact le_of_eq h
        · have : c.uploaded_at = none := (maxUploadedAt_none_iff rest).mp hr c hcr
          rw [this] at hcu
          cases hcu
      | some m =>
        rw [hr] at h
        injection h with h
        rcases List.mem_cons.mp hc with hcb | hcr
        · subst hcb
          rw [hb] at hcu
          injection hcu with hcu
          rw [← hcu, ← h]
          exact le_max_left _ _
        · calc u ≤ m := ih m hr c hcr u hcu
            _ ≤ t := by rw [← h]; exact le_max_right _ _

theorem pendingCount_pos_iff (l : List MetricBatch) :
    0 < pendingCount l ↔ ∃ b ∈ l, b.uploaded_at = none := by
  rw [pendingCount, List.length_pos_iff_exists_mem]
  constructor
  · rintro ⟨b, hb⟩
    rcases List.mem_filter.mp hb with ⟨hbl, hbn⟩
    exact ⟨b, hbl, Option.isNone_iff_eq_none.mp hbn⟩
  · rintro ⟨b, hbl, hbn⟩
    exact ⟨b, List.mem_filter.mpr ⟨hbl, by rw [hbn]; rfl⟩⟩

theorem uploadLoopGo_eq_map (send_metric : String → Int → Except String Unit)
    (set_status : Except String Unit) (now : Int) (l : List MetricBatch) :
    uploadLoopGo send_metric set_status now l =
      l.map (uploadOneBatch send_metric set_status now) := by
  induction l with
  | nil => rfl
  | cons m rest ih => rw [uploadLoopGo, ih, List.map_cons]

/-! ## Claim theorems: TelemetryService -/

/-- C4: `_should_collect` is true iff no batch exists or the whole days
elapsed since the latest `collected_at` reach `collection_interval_days`;
a fresh store yields true, and a store holding a batch collected at `now`
yields false at any instant less than 7 days later (default config). -/
theorem C4_should_collect (cfg : TelemetryConfig) (now : Int) (s : Store) :
    (should_collect cfg now (.ok s) = true ↔
      s.batches = [] ∨ ∃ t, maxCollectedAt s.batches = some t ∧
        cfg.collection_interval_days ≤ pyTimedeltaDays (now - t)) ∧
    (∀ t, maxCollectedAt s.batches = some t →
      (∃ b ∈ s.batches, b.collected_at = t) ∧ ∀ b ∈ s.batches, b.collected_at ≤ t) ∧
    (s.batches = [] → should_collect cfg now (.ok s) = true) ∧
    (∀ b, b ∈ s.batches → b.collected_at = now →
      (∀ c ∈ s.batches, c.collected_at ≤ now) →
      ∀ later : Int, now ≤ later → later - now < 7 * 86400 →
      should_collect defaultConfig later (.ok s) = false) := by
  refine ⟨?_, fun t ht => ⟨maxCollectedAt_mem _ t ht, maxCollectedAt_ge _ t ht⟩, ?_, ?_⟩
  · cases h : maxCollectedAt s.batches with
    | none =>
      simp [should_collect, h]
      exact (maxCollectedAt_eq_none _).mp h
    | some t =>
      have hne : s.batches ≠ [] := by
        intro hnil
        rw [(maxCollectedAt_eq_none s.batches).mpr hnil] at h
        cases h
      simp [should_collect, h, hne]
  · intro h
    simp [should_collect, (maxCollectedAt_eq_none s.batches).mpr h]
  · intro b hb hbnow hall later hle hlt
    have hmax : maxCollectedAt s.batches = some now := by
      cases h : maxCollectedAt s.batches with
      | none =>
        rw [(maxCollectedAt_eq_none _).mp h] at hb
        cases hb
      | some t =>
        have h1 : t ≤ now := by
          rcases maxCollectedAt_mem _ t h with ⟨c, hc, hct⟩
          rw [← hct]
          exact hall c hc
        have h2 : now ≤ t := by
          rw [← hbnow]
          exact maxCollectedAt_ge _ t h b hb
        rw [le_antisymm h1 h2]
    have hdays : pyTimedeltaDays (later - now) < 7 := by
      rw [pyTimedeltaDays, Int.fdiv_eq_ediv _ (by norm_num)]
      exact (Int.ediv_lt_iff_lt_mul (by norm_num)).mpr (by omega)
    simp [should_collect, hmax, defaultConfig]
    omega

/-- C4 (witness): a fresh store collects; a store with one batch
collected at time 0 does not collect again at 6 days. -/
theorem C4_witness :
    should_collect defaultConfig 0 (.ok ⟨[], none⟩) = true ∧
    should_collect defaultConfig (6 * 86400)
      (.ok ⟨[⟨0, [], 0, none, 0, none⟩], none⟩) = false := by
  constructor
  · exact (C4_should_collect defaultConfig 0 ⟨[], none⟩).2.2.1 rfl
  · exact (C4_should_collect defaultConfig 0 ⟨[⟨0, [], 0, none, 0, none⟩], none⟩).2.2.2
      ⟨0, [], 0, none, 0, none⟩ (by simp) rfl (by decide) (6 * 86400) (by decide) (by decide)

/-- C5: `_should_upload` is true iff no batch was ever uploaded and a
pending batch exists, or the elapsed hours since the most recent
`uploaded_at` reach `upload_interval_hours`; no uploaded batch and zero
pending yields false. -/
theorem C5_should_upload (cfg : TelemetryConfig) (now : Int) (s : Store) :
    (should_upload cfg now (.ok s) = true ↔
      (maxUploadedAt s.batches = none ∧ 0 < pendingCount s.batches) ∨
      (∃ t, maxUploadedAt s.batches = some t ∧
        (cfg.upload_interval_hours : ℚ) ≤ hoursTotal (now - t))) ∧
    (maxUploadedAt s.batches = none ↔ ∀ b ∈ s.batches, b.uploaded_at = none) ∧
    (∀ t, maxUploadedAt s.batches = some t →
      (∃ b ∈ s.batches, b.uploaded_at = some t) ∧
      ∀ b ∈ s.batches, ∀ u, b.uploaded_at = some u → u ≤ t) ∧
    (0 < pendingCount s.batches ↔ ∃ b ∈ s.batches, b.uploaded_at = none) ∧
    (maxUploadedAt s.batches = none → pendingCount s.batches = 0 →
      should_upload cfg now (.ok s) = false) := by
  refine ⟨?_, maxUploadedAt_none_iff s.batches,
    fun t ht => ⟨maxUploadedAt_mem _ t ht, maxUploadedAt_ge _ t ht⟩,
    pendingCount_pos_iff s.batches, ?_⟩
  · cases h : maxUploadedAt s.batches with
    | none => simp [should_upload, h]
    | some t =>
      have hne : maxUploadedAt s.batches ≠ none := by rw [h]; simp
      simp [should_upload, h]
  · intro h hp
    simp [should_upload, h, hp]

/-- C5 (witness): one pending, never-uploaded batch makes
`_should_upload` true; an empty store makes it false. -/
theorem C5_witness :
    should_upload defaultConfig 0 (.ok ⟨[⟨0, [], 0, none, 0, none⟩], none⟩) = true ∧
    should_upload defaultConfig 0 (.ok ⟨[], none⟩) = false := by
  constructor
  · exact (C5_should_upload defaultConfig 0 ⟨[⟨0, [], 0, none, 0, none⟩], none⟩).1.mpr
      (Or.inl ⟨by decide, by decide⟩)
  · exact (C5_should_upload defaultConfig 0 ⟨[], none⟩).2.2.2.2 (by decide) (by decide)

/-- C6: both loops choose the normal check interval (3600 s) iff the
identity is established — the singleton row exists with both ids
non-null — and the bootstrap interval (180 s) otherwise; a row with only
one id set counts as not established. -/
theorem C6_check_intervals (db : Except String Store) :
    (is_identity_established db = true ↔
      ∃ s ident, db = .ok s ∧ s.identity = some ident ∧
        ident.customer_id ≠ none ∧ ident.instance_id ≠ none) ∧
    collectionLoopCheckInterval defaultConfig db =
      (if is_identity_established db then 3600 else 180) ∧
    uploadLoopCheckInterval defaultConfig db =
      (if is_identity_established db then 3600 else 180) ∧
    (∀ s ident, db = .ok s → s.identity = some ident →
      ident.customer_id = none ∨ ident.instance_id = none →
      collectionLoopCheckInterval defaultConfig db = 180 ∧
      uploadLoopCheckInterval defaultConfig db = 180) := by
  refine ⟨?_, ?_, ?_, ?_⟩
  · cases db with
    | error e => simp [is_identity_established]
    | ok s =>
      cases hid : s.identity with
      | none => simp [is_identity_established, hid]
      | some ident =>
        simp [is_identity_established, hid, Option.isSome_iff_ne_none]
  · by_cases h : is_identity_established db <;>
      simp [collectionLoopCheckInterval, h, defaultConfig]
  · by_cases h : is_identity_established db <;>
      simp [uploadLoopCheckInterval, h, defaultConfig]
  · intro s ident hdb hid hor
    subst hdb
    have hfalse : is_identity_established (.ok s) = false := by
      rcases hor with h | h <;> simp [is_identity_established, hid, h]
    simp [collectionLoopCheckInterval, uploadLoopCheckInterval, hfalse, defaultConfig]

/-- C6 (witness): an identity with only `customer_id` set leaves both
loops on the bootstrap interval. -/
theorem C6_witness :
    collectionLoopCheckInterval defaultConfig
      (.ok ⟨[], some ⟨some "cust", none⟩⟩) = 180 ∧
    uploadLoopCheckInterval defaultConfig
      (.ok ⟨[], some ⟨some "cust", none⟩⟩) = 180 :=
  (C6_check_intervals (.ok ⟨[], some ⟨some "cust", none⟩⟩)).2.2.2
    ⟨[], some ⟨some "cust", none⟩⟩ ⟨some "cust", none⟩ rfl rfl (Or.inr rfl)

/-- C9: `get_license_warning_status` warns iff an upload exists and the
whole days since the most recent `uploaded_at` strictly exceed the
threshold; never-uploaded yields the quiet default; most recent upload 5
days ago under the default threshold 4 yields a warning with
`days_since_upload = 5`. -/
theorem C9_license_warning (cfg : TelemetryConfig) (now : Int) (s : Store) :
    ((get_license_warning_status cfg now (.ok s)).should_warn = true ↔
      ∃ t, maxUploadedAt s.batches = some t ∧
        cfg.license_warning_threshold_days < pyTimedeltaDays (now - t)) ∧
    (maxUploadedAt s.batches = none →
      get_license_warning_status cfg now (.ok s) = ⟨false, none⟩) ∧
    (∀ t, maxUploadedAt s.batches = some t →
      (get_license_warning_status cfg now (.ok s)).days_since_upload =
        some (pyTimedeltaDays (now - t))) ∧
    (∀ t, maxUploadedAt s.batches = some t → now - t = 5 * 86400 →
      get_license_warning_status defaultConfig now (.ok s) = ⟨true, some 5⟩) := by
  refine ⟨?_, ?_, ?_, ?_⟩
  · cases h : maxUploadedAt s.batches with
    | none => simp [get_license_warning_status, h]
    | some t => simp [get_license_warning_status, h]
  · intro h
    simp [get_license_warning_status, h]
  · intro t ht
    simp [get_license_warning_status, ht]
  · intro t ht hdelta
    have hdays : pyTimedeltaDays (now - t) = 5 := by
      rw [hdelta]
      decide
    simp [get_license_warning_status, ht, hdays, defaultConfig]

/-- C9 (witness): the 5-days-ago scenario at concrete values. -/
theorem C9_witness :
    get_license_warning_status defaultConfig (5 * 86400)
      (.ok ⟨[⟨0, [], 0, some 0, 1, none⟩], none⟩) = ⟨true, some 5⟩ :=
  (C9_license_warning defaultConfig (5 * 86400)
    ⟨[⟨0, [], 0, some 0, 1, none⟩], none⟩).2.2.2 0 (by decide) (by decide)

/-- C10: a persistence-layer exception makes every status query return
its non-triggering default: `_should_collect`, `_should_upload` and
`_is_identity_established` return false and
`get_license_warning_status` reports no warning and no day count. -/
theorem C10_read_error_defaults (cfg : TelemetryConfig) (now : Int) (e : String) :
    should_collect cfg now (.error e) = false ∧
    should_upload cfg now (.error e) = false ∧
    is_identity_established (.error e) = false ∧
    get_license_warning_status cfg now (.error e) = ⟨false, none⟩ :=
  ⟨rfl, rfl, rfl, rfl⟩

/-- C7: the upload run processes the pending batches in ascending
`collected_at` order; a per-batch exception records `last_upload_error`
and increments `upload_attempts` while the remaining batches are still
processed (every input position yields an output position); success sets
`uploaded_at := now` and clears the error; and the batch mutations are
persisted by exactly one commit at the end of the run. -/
theorem C7_upload_run (send_metric : String → Int → Except String Unit)
    (set_status : Except String Unit) (now : Int) (batches : List MetricBatch) :
    List.Sorted byCollectedAt (pendingSorted batches) ∧
    (∀ b ∈ pendingSorted batches, b.uploaded_at = none) ∧
    (upload_batch_phase send_metric set_status now (pendingSorted batches)).processed.length =
      (pendingSorted batches).length ∧
    (∀ (i : Nat) (m : MetricBatch) (e : String), (pendingSorted batches)[i]? = some m →
      sendBatchBody send_metric set_status m = .error e →
      (upload_batch_phase send_metric set_status now (pendingSorted batches)).processed[i]? =
        some { m with upload_attempts := m.upload_attempts + 1,
                      last_upload_error := some e }) ∧
    (∀ (i : Nat) (m : MetricBatch), (pendingSorted batches)[i]? = some m →
      sendBatchBody send_metric set_status m = .ok () →
      (upload_batch_phase send_metric set_status now (pendingSorted batches)).processed[i]? =
        some { m with uploaded_at := some now, upload_attempts := m.upload_attempts + 1,
                      last_upload_error := none }) ∧
    (upload_batch_phase send_metric set_status now (pendingSorted batches)).commitCount = 1 ∧
    (upload_batch_phase send_metric set_status now (pendingSorted batches)).committed =
      (upload_batch_phase send_metric set_status now (pendingSorted batches)).processed := by
  refine ⟨List.sorted_insertionSort byCollectedAt _, ?_, ?_, ?_, ?_, rfl, rfl⟩
  · intro b hb
    have hmem : b ∈ batches.filter (fun c => c.uploaded_at.isNone) :=
      (List.perm_insertionSort byCollectedAt _).mem_iff.mp hb
    exact Option.isNone_iff_eq_none.mp (List.mem_filter.mp hmem).2
  · show (uploadLoopGo send_metric set_status now (pendingSorted batches)).length = _
    rw [uploadLoopGo_eq_map, List.length_map]
  · intro i m e hi hsend
    show (uploadLoopGo send_metric set_status now (pendingSorted batches))[i]? = _
    rw [uploadLoopGo_eq_map, List.getElem?_map, hi]
    simp [uploadOneBatch, hsend]
  · intro i m hi hsend
    show (uploadLoopGo send_metric set_status now (pendingSorted batches))[i]? = _
    rw [uploadLoopGo_eq_map, List.getElem?_map, hi]
    simp [uploadOneBatch, hsend]

/-- C7 (witness): on concrete data — an earlier batch that uploads fine
and a later one whose send fails — the failing batch gets the recorded
error while the other is still marked uploaded, in one run. -/
theorem C7_witness :
    (upload_batch_phase exSendMetric (.ok ()) 100
        (pendingSorted [exBatchB, exBatchA])).processed[1]? =
      some { exBatchB with upload_attempts := exBatchB.upload_attempts + 1,
                           last_upload_error := some "boom" } ∧
    (upload_batch_phase exSendMetric (.ok ()) 100
        (pendingSorted [exBatchB, exBatchA])).processed[0]? =
      some { exBatchA with uploaded_at := some 100,
                           upload_attempts := exBatchA.upload_attempts + 1,
                           last_upload_error := none } :=
  ⟨(C7_upload_run exSendMetric (.ok ()) 100 [exBatchB, exBatchA]).2.2.2.1 1 exBatchB
      "boom" (by decide) rfl,
   (C7_upload_run exSendMetric (.ok ()) 100 [exBatchB, exBatchA]).2.2.2.2.1 0 exBatchA
      (by decide) rfl⟩

/-- C8 (counterexample): the claim says an already-established identity
is left as is by an upload run, but `_upload_pending_metrics` lines
420-425 unconditionally overwrite both ids with the values returned by
the external client: an established (`cust-old`, `inst-old`) identity
comes out as (`prov-c`, `prov-i`). -/
theorem C8_counterexample :
    upload_run_identity true (.ok ("prov-c", "prov-i")) (.ok ("prov-c", "prov-i"))
      "uuid-f" "admin@example.com" (some ⟨some "cust-old", some "inst-old"⟩) =
      .ok (some ⟨some "prov-c", some "prov-i"⟩) ∧
    is_identity_established (.ok ⟨[], some ⟨some "cust-old", some "inst-old"⟩⟩) = true ∧
    (⟨some "prov-c", some "prov-i"⟩ : TelemetryIdentity) ≠
      ⟨some "cust-old", some "inst-old"⟩ :=
  ⟨rfl, rfl, by decide⟩

/-- C8 (amended): during an upload run, a missing identity row is created
with `customer_id := admin email` and `instance_id` from the external
client, falling back to a locally generated unique id when the SDK is
unavailable or the call fails; a truthy field is left alone by the
get-or-create step; but a successful run then overwrites BOTH ids with
the client-returned values regardless of prior establishment (a failing
client call aborts the run, and an unavailable SDK skips it entirely). -/
theorem C8_identity_amended (available : Bool)
    (idCall upCall : Except String (String × String)) (uuid adminEmail : String)
    (ident0 : Option TelemetryIdentity) :
    ((get_or_create_identity available idCall uuid adminEmail none).customer_id =
      some adminEmail) ∧
    (∀ i, pyTruthy i.customer_id = true → pyTruthy i.instance_id = true →
      get_or_create_identity available idCall uuid adminEmail (some i) = i) ∧
    (∀ i, pyTruthy i.customer_id = false → pyTruthy i.instance_id = true →
      get_or_create_identity available idCall uuid adminEmail (some i) =
        { i with customer_id := some adminEmail }) ∧
    (∀ i c j, pyTruthy i.instance_id = false → available = true → idCall = .ok (c, j) →
      (get_or_create_identity available idCall uuid adminEmail (some i)).instance_id =
        some j) ∧
    (∀ i e, pyTruthy i.instance_id = false → available = true → idCall = .error e →
      (get_or_create_identity available idCall uuid adminEmail (some i)).instance_id =
        some uuid) ∧
    (∀ i, pyTruthy i.instance_id = false → available = false →
      (get_or_create_identity available idCall uuid adminEmail (some i)).instance_id =
        some uuid) ∧
    (∀ c j, available = true → upCall = .ok (c, j) →
      upload_run_identity available idCall upCall uuid adminEmail ident0 =
        .ok (some { get_or_create_identity available idCall uuid adminEmail ident0 with
                    customer_id := some c, instance_id := some j })) ∧
    (∀ e, available = true → upCall = .error e →
      upload_run_identity available idCall upCall uuid adminEmail ident0 = .error e) ∧
    (available = false →
      upload_run_identity available idCall upCall uuid adminEmail ident0 = .ok ident0) := by
  refine ⟨?_, ?_, ?_, ?_, ?_, ?_, ?_, ?_, ?_⟩
  · cases idCall with
    | ok p =>
      obtain ⟨c, j⟩ := p
      by_cases hav : available = true <;> simp [get_or_create_identity, pyTruthy, hav]
    | error e2 =>
      by_cases hav : available = true <;> simp [get_or_create_identity, pyTruthy, hav]
  · intro i hc hi
    simp [get_or_create_identity, hc, hi]
  · intro i hc hi
    simp [get_or_create_identity, hc, hi]
  · intro i c j hi hav hcall
    subst hav
    by_cases hc : pyTruthy i.customer_id <;> simp [get_or_create_identity, hc, hi, hcall]
  · intro i e hi hav hcall
    subst hav
    by_cases hc : pyTruthy i.customer_id <;> simp [get_or_create_identity, hc, hi, hcall]
  · intro i hi hav
    subst hav
    by_cases hc : pyTruthy i.customer_id <;> simp [get_or_create_identity, hc, hi]
  · intro c j hav hcall
    subst hav
    simp [upload_run_identity, hcall]
  · intro e hav hcall
    subst hav
    simp [upload_run_identity, hcall]
  · intro hav
    subst hav
    simp [upload_run_identity]

/-- C8 (witness): the amended overwrite behaviour at concrete values. -/
theorem C8_witness :
    upload_run_identity true (.ok ("c-2", "i-2")) (.ok ("c-2", "i-2")) "uuid-w"
      "admin@w" (some ⟨some "c-1", some "i-1"⟩) = .ok (some ⟨some "c-2", some "i-2"⟩) := by
  have h := (C8_identity_amended true (.ok ("c-2", "i-2")) (.ok ("c-2", "i-2")) "uuid-w"
    "admin@w" (some ⟨some "c-1", some "i-1"⟩)).2.2.2.2.2.2.1 "c-2" "i-2" rfl rfl
  rw [h]

end Wrap
